import Mathlib

/-!
Verification development for the background BoardGameGeek (BGG)
synchronization subsystem of the bgg_flashcards application.

The definitions below are a shallow embedding of the Python sources:

* `src/utils/background_tasks.py` — the `BackgroundTaskManager`
  coordinator (task tracking, cooperative cancellation, the execution
  wrapper `_execute_background_task`);
* `src/utils/image_service.py` — the `ImageService` download /
  compression / large-object storage pipeline;
* `src/models/game.py` — the `Game` model (cache upsert `save_to_db`,
  the BGG detail parser `get_bgg_game_details`, the name-search detail
  loop `_search_bgg_by_name`, the image guards
  `Game.download_and_store_image` / `_has_local_image`);
* `src/pages/game_search_page.py` — the merge/replace orchestration
  callback `on_bgg_complete`.

Machine integers are modelled by `Int`/`Nat`, Python floats that carry
BGG ratings by `ℚ`, byte strings by `List Nat` (each entry < 256),
Python `None` by `Option`, raised-and-caught exceptions by `Option` /
explicit failure constructors.  Mutable sets and dicts of the task
manager are modelled by duplicate-free lists; reads of shared mutable
flags from a worker thread are modelled by passing the observed value
of each read explicitly.
-/

namespace BggFlashcards

/-- Python truthiness of an optional integer (`not x` is true exactly for
`None` and for `0`). -/
def idTruthy : Option Int → Bool
  | none => false
  | some n => n != 0

/-- A `Game` record (src/models/game.py, `Game.__init__`).  The constructor
normalizes `is_expansion` to the integers 0/1; `source` models the
dynamically attached `_source` attribute (empty when never set). -/
structure Game where
  id : Option Int
  name : String
  avg_rating : ℚ
  min_players : Int
  max_players : Int
  image_path : String
  is_expansion : Nat
  yearpublished : Option Int
  source : String
deriving DecidableEq

/-- `Game.__init__`: builds a record, storing `is_expansion` as 0/1
(`1 if is_expansion else 0`). -/
def mkGame (name : String) (avg_rating : ℚ) (min_players max_players : Int)
    (image_path : String) (game_id : Option Int) (is_expansion : Bool)
    (yearpublished : Option Int) (source : String) : Game :=
  { id := game_id
    name := name
    avg_rating := avg_rating
    min_players := min_players
    max_players := max_players
    image_path := image_path
    is_expansion := if is_expansion then 1 else 0
    yearpublished := yearpublished
    source := source }

/-! ## Background Task Coordinator (src/utils/background_tasks.py) -/

/-- Python's `str.startswith`, evaluated on the character data. -/
def startswith (s pre : String) : Bool := pre.data.isPrefixOf s.data

/-- Add an element to a Python `set` modelled as a duplicate-free list. -/
def addSet (l : List String) (x : String) : List String :=
  if x ∈ l then l else l ++ [x]

/-- Remove an element from a Python `set` / `dict` modelled as a list. -/
def removeSet (l : List String) (x : String) : List String :=
  l.filter (fun y => y ≠ x)

/-- The tracking structures of `BackgroundTaskManager.__init__`:
`running_tasks`, `completed_callbacks` (ids that have a registered
callback), `cancelled_tasks`, `task_threads` (ids owning a live thread
reference). -/
structure ManagerState where
  running_tasks : List String
  completed_callbacks : List String
  cancelled_tasks : List String
  task_threads : List String
deriving DecidableEq

/-- The freshly initialized manager (all tracking structures empty). -/
def ManagerState.init : ManagerState := ⟨[], [], [], []⟩

/-- `BackgroundTaskManager.cancel_search_tasks`: marks every running task
whose id starts with `"bgg_search_"` as cancelled. -/
def cancel_search_tasks (s : ManagerState) : ManagerState :=
  { s with cancelled_tasks :=
      ((s.running_tasks.filter (fun tid => startswith tid "bgg_search_")).foldl
        addSet s.cancelled_tasks) }

/-- `BackgroundTaskManager._start_background_task`: records the id as
running, registers the completion callback when one is supplied, and
stores the (daemon) thread reference. -/
def start_background_task (s : ManagerState) (task_id : String)
    (has_callback : Bool) : ManagerState :=
  { running_tasks := addSet s.running_tasks task_id
    completed_callbacks :=
      if has_callback then addSet s.completed_callbacks task_id
      else s.completed_callbacks
    cancelled_tasks := s.cancelled_tasks
    task_threads := addSet s.task_threads task_id }

/-- The task id generated by `fetch_bgg_data_in_background`:
`f"bgg_search_{search_query}_{int(time.time())}"`, where `now` is the
whole-second timestamp `int(time.time())`. -/
def bgg_search_task_id (search_query : String) (now : Nat) : String :=
  "bgg_search_" ++ search_query ++ "_" ++ Nat.repr now

/-- The task id generated by `fetch_expansions_in_background`:
`f"expansions_{base_game_id}_{int(time.time())}"`. -/
def expansions_task_id (base_game_id : Int) (now : Nat) : String :=
  "expansions_" ++ base_game_id.repr ++ "_" ++ Nat.repr now

/-- `BackgroundTaskManager.fetch_bgg_data_in_background` (state effect of
the caller's thread): cancel all running search tasks, generate the task
id, and start the background task unless that id is already tracked as
running. -/
def fetch_bgg_data_in_background (s : ManagerState) (search_query : String)
    (now : Nat) (has_callback : Bool) : ManagerState :=
  let s1 := cancel_search_tasks s
  let task_id := bgg_search_task_id search_query now
  if task_id ∈ s1.running_tasks then s1
  else start_background_task s1 task_id has_callback

/-- `BackgroundTaskManager._cleanup_task`: removes the task id from all
four tracking structures. -/
def cleanup_task (s : ManagerState) (task_id : String) : ManagerState :=
  { running_tasks := removeSet s.running_tasks task_id
    completed_callbacks := removeSet s.completed_callbacks task_id
    cancelled_tasks := removeSet s.cancelled_tasks task_id
    task_threads := removeSet s.task_threads task_id }

/-- Outcome of the work function inside the execution wrapper: a returned
value, or a raised exception. -/
inductive WorkOutcome (α : Type) where
  | ok (result : α)
  | raised
deriving DecidableEq

/-- The number of completion-callback invocations performed by one run of
`BackgroundTaskManager._execute_background_task` (lines 308–333).

The worker thread reads the shared flag `task_id in self.cancelled_tasks`
three times: at the pre-execution checkpoint (line 310), at the
post-execution checkpoint (line 318) and again inside the callback guard
(line 323); since `cancel` may run concurrently, the three observed
values `pre_cancelled`, `post_cancelled`, `guard_cancelled` are passed
explicitly.  `has_callback` is the observed value of
`task_id in self.completed_callbacks` at line 323; `work` is the outcome
of `work_function()`. -/
def execute_callback_invocations {α : Type} (pre_cancelled : Bool)
    (work : WorkOutcome α) (post_cancelled guard_cancelled has_callback : Bool) :
    Nat :=
  if pre_cancelled then 0
  else
    match work with
    | .raised => 0
    | .ok _ =>
      if post_cancelled then 0
      else if has_callback && !guard_cancelled then 1
      else 0

/-! ## Image compression pipeline (src/utils/image_service.py) -/

/-- `ImageService.MAX_IMAGE_SIZE = 2 * 1024 * 1024` (the 2 MiB budget). -/
def MAX_IMAGE_SIZE : Nat := 2 * 1024 * 1024

/-- The quality ladder of `ImageService._aggressive_compress`
(lines 201–210): for each quality in the given list, encode (the
already 200×200-thumbnailed image) and return the first output whose
byte length fits the budget.  `encode q` stands for the bytes produced
by `image.save(..., format='JPEG', quality=q, optimize=True)` and is
left abstract. -/
def try_quality_ladder (encode : Nat → List Nat) : List Nat → Option (List Nat)
  | [] => none
  | q :: qs =>
    let compressed := encode q
    if compressed.length ≤ MAX_IMAGE_SIZE then some compressed
    else try_quality_ladder encode qs

/-- The dimension ladder of `ImageService._aggressive_compress`
(lines 213–227): for each maximum size, re-decode the original bytes,
thumbnail to that size, encode at JPEG quality 30, and return the first
output that fits the budget.  `encode sz` stands for that re-encode. -/
def try_size_ladder (encode : Nat × Nat → List Nat) :
    List (Nat × Nat) → Option (List Nat)
  | [] => none
  | sz :: szs =>
    let compressed := encode sz
    if compressed.length ≤ MAX_IMAGE_SIZE then some compressed
    else try_size_ladder encode szs

/-- `ImageService._aggressive_compress`: `decode_ok` is false when
`Image.open` (or any later PIL call) raises, in which case the exception
handler returns `(None, None)`.  Otherwise run the literal quality ladder
`[60, 50, 40, 30, 20]`, then the literal size ladder
`[(150, 150), (100, 100), (80, 80)]`; if neither fits, fail. -/
def aggressive_compress (decode_ok : Bool) (encode_quality : Nat → List Nat)
    (encode_size : Nat × Nat → List Nat) : Option (List Nat × String) :=
  if decode_ok then
    match try_quality_ladder encode_quality [60, 50, 40, 30, 20] with
    | some d => some (d, "image/jpeg")
    | none =>
      match try_size_ladder encode_size [(150, 150), (100, 100), (80, 80)] with
      | some d => some (d, "image/jpeg")
      | none => none
  else none

/-- The budget-escalation step of `ImageService.download_and_store_image`
(lines 107–117): run `_process_image`; on failure give up; if its output
exceeds the budget, replace it by the result of `_aggressive_compress`
applied to the original bytes. -/
def process_with_budget (processed : Option (List Nat × String))
    (aggressive : Option (List Nat × String)) : Option (List Nat × String) :=
  match processed with
  | none => none
  | some (d, m) => if d.length > MAX_IMAGE_SIZE then aggressive else some (d, m)

/-! ## Catalog client: name-search detail loop (src/models/game.py) -/

/-- The per-candidate loop of `Game._search_bgg_by_name` (lines 286–299).
`items` are the candidate BGG ids in listing order; `cancelled i` is the
value returned by the cancellation checker at its `i`-th consultation
(the checker reads the shared `cancelled_tasks` set, so its answer may
change over time); `fetch bgg_id` is the result of
`Game.get_bgg_game_details(bgg_id)` (`none` on failure, which is logged
and skipped).  Each successful detail record gets
`_source = "BoardGameGeek"` and is appended; on observing cancellation
the accumulated partial list is returned. -/
def search_detail_loop (cancelled : Nat → Bool) (fetch : Int → Option Game) :
    List Int → Nat → List Game → List Game
  | [], _, games => games
  | bgg_id :: rest, step, games =>
    if cancelled step then games
    else
      match fetch bgg_id with
      | some g =>
        search_detail_loop cancelled fetch rest (step + 1)
          (games ++ [{ g with source := "BoardGameGeek" }])
      | none => search_detail_loop cancelled fetch rest (step + 1) games

/-- The detail phase of `Game._search_bgg_by_name`: process all search
items starting from an empty accumulator. -/
def search_bgg_by_name_details (cancelled : Nat → Bool)
    (fetch : Int → Option Game) (items : List Int) : List Game :=
  search_detail_loop cancelled fetch items 0 []

/-! ## Search orchestration merge (src/pages/game_search_page.py) -/

/-- `on_bgg_complete` inside `show_immediate_results_for_name`
(lines 211–234): when the detailed result set is non-empty, drop every
presented entry (base game or expansion) whose id occurs among the
detailed ids, then append the detailed records partitioned by their
expansion flag (`not g.is_expansion` selects the base-game list); when
it is empty, re-run the local query — `requery` is the pair of lists
`Game.search_by_name(query)` would return at that moment. -/
def on_bgg_complete (local_results local_expansions detailed_games : List Game)
    (requery : List Game × List Game) : List Game × List Game :=
  if detailed_games.isEmpty then requery
  else
    let detailed_ids := detailed_games.map (fun g => g.id)
    let kept_results :=
      local_results.filter (fun g => !(decide (g.id ∈ detailed_ids)))
    let kept_expansions :=
      local_expansions.filter (fun g => !(decide (g.id ∈ detailed_ids)))
    let base_games := detailed_games.filter (fun g => decide (g.is_expansion = 0))
    let expansions := detailed_games.filter (fun g => decide (g.is_expansion ≠ 0))
    (kept_results ++ base_games, kept_expansions ++ expansions)

/-! ## Catalog detail parsing (src/models/game.py, `get_bgg_game_details`) -/

/-- The state of one XML attribute as the parser sees it: the element is
absent, or present with a value the numeric conversion (`float`/`int`)
rejects by raising, or present with a well-formed value. -/
inductive Attr (α : Type) where
  | absent
  | invalid
  | val (a : α)
deriving DecidableEq

/-- Convert an attribute the way the parser's straight-line code does:
an absent element falls back to the default, a well-formed value is kept,
and a malformed value makes the conversion raise — the exception escapes
to the function-level handler, so the whole fetch yields `None`. -/
def attrOrDefault {α : Type} : Attr α → α → Option α
  | .absent, d => some d
  | .invalid, _ => none
  | .val a, _ => some a

/-- A `<link>` element of the BGG "thing" response (its `type` and
`value` attributes). -/
structure ThingLink where
  type : String
  value : String
deriving DecidableEq

/-- The fields of the `<item>` element of a BGG "thing" response that
`get_bgg_game_details` reads.  `primaryName` is the `value` of
`.//name[@type='primary']` (`none` when missing); `average` is the
ratings average, `minplayers`/`maxplayers` the player bounds,
`yearpublished` the year, each an `Attr` as parsed by `float`/`int`;
`image` is the text of `.//image`; `links` are the `<link>` elements. -/
structure ThingItem where
  primaryName : Option String
  average : Attr ℚ
  minplayers : Attr Int
  maxplayers : Attr Int
  image : Option String
  links : List ThingLink
  yearpublished : Attr Int
deriving DecidableEq

/-- Python's `round` to an integer: round half to even. -/
def pyRoundInt (q : ℚ) : ℤ :=
  let f := ⌊q⌋
  if q - f < 1 / 2 then f
  else if q - f > 1 / 2 then f + 1
  else if f % 2 = 0 then f else f + 1

/-- Python's `round(x, 1)`: the value rounded to one decimal place. -/
def round1 (q : ℚ) : ℚ := (pyRoundInt (q * 10) : ℚ) / 10

/-- The parse-and-construct part of `Game.get_bgg_game_details`
(lines 432–485).  `resp` is `none` when the request failed, returned a
non-200 status, or the response holds no `<item>` (all yield `None`).
Otherwise: missing primary name yields `None`; the rating defaults to
`0.0` when absent and is rounded to one decimal; `minplayers` /
`maxplayers` default to 1 when absent; a malformed rating or player
count raises inside `float`/`int` and is caught by the function-level
handler (yielding `None`); the expansion flag is 1 exactly when some
link has `type = "boardgamecategory"` and
`value = "Expansion for Base-game"`; the year falls back to `None` on
absence or on a `ValueError`/`TypeError` caught locally. -/
def parse_bgg_thing (bgg_id : Int) (resp : Option ThingItem) : Option Game :=
  match resp with
  | none => none
  | some item =>
    match item.primaryName with
    | none => none
    | some name =>
      match attrOrDefault item.average 0, attrOrDefault item.minplayers 1,
          attrOrDefault item.maxplayers 1 with
      | some rating, some min_players, some max_players =>
        let avg_rating := round1 rating
        let image_path := item.image.getD ""
        let is_expansion := item.links.any
          (fun l => l.type == "boardgamecategory" &&
            l.value == "Expansion for Base-game")
        let yearpublished : Option Int :=
          match item.yearpublished with
          | .val y => some y
          | _ => none
        some (mkGame name avg_rating min_players max_players image_path
          (some bgg_id) is_expansion yearpublished "")
      | _, _, _ => none

/-! ## Cache upsert (src/models/game.py, `save_to_db`) -/

/-- A row of the `games` table as `save_to_db` writes it. -/
structure GameRow where
  id : Int
  name : String
  avg_rating : ℚ
  min_players : Int
  max_players : Int
  image_path : String
  is_expansion : Nat
  yearpublished : Option Int
deriving DecidableEq

/-- The row `save_to_db` writes for a game stored under key `i`. -/
def rowOf (i : Int) (g : Game) : GameRow :=
  { id := i
    name := g.name
    avg_rating := g.avg_rating
    min_players := g.min_players
    max_players := g.max_players
    image_path := g.image_path
    is_expansion := g.is_expansion
    yearpublished := g.yearpublished }

/-- `Game.save_to_db` (lines 67–111) over the `games` table modelled as a
row list.  `next_id` is the value the auto-increment sequence would hand
out (`RETURNING id`).  With a truthy id (`if self.id:` — note that the
Python-falsy id 0 takes the auto-insert branch): update the row in place
when a row with that id exists, insert otherwise.  Returns the saved id
and the new table. -/
def save_to_db (g : Game) (next_id : Int) (db : List GameRow) :
    Int × List GameRow :=
  match g.id with
  | some i =>
    if i = 0 then (next_id, db ++ [rowOf next_id g])
    else if db.any (fun r => decide (r.id = i)) then
      (i, db.map (fun r => if r.id = i then rowOf i g else r))
    else (i, db ++ [rowOf i g])
  | none => (next_id, db ++ [rowOf next_id g])

/-- The persistence step of `Game.get_bgg_game_details` (lines 483–486):
parse the response and, on success, `save_to_db` the record (keyed by the
BGG id).  Returns the record and the updated cache table. -/
def get_bgg_game_details_db (bgg_id : Int) (resp : Option ThingItem)
    (next_id : Int) (db : List GameRow) : Option Game × List GameRow :=
  match parse_bgg_thing bgg_id resp with
  | none => (none, db)
  | some g => (some g, (save_to_db g next_id db).2)

/-! ## Image storage (src/utils/image_service.py, large objects) -/

/-- The image columns of a `games` row: `image_oid` (large-object
handle), `image_mimetype`, `image_size`. -/
structure ImageRow where
  id : Int
  image_oid : Option Nat
  image_mimetype : Option String
  image_size : Option Nat
deriving DecidableEq

/-- The storage reachable through the connection pool: the `games` rows'
image columns, the large-object store (handle ↦ bytes), and the next
handle `lo_create` would allocate. -/
structure ImageDb where
  rows : List ImageRow
  blobs : List (Nat × List Nat)
  next_oid : Nat
deriving DecidableEq

/-- Look up the contents of a large object by handle. -/
def ImageDb.lookupBlob (db : ImageDb) (oid : Nat) : Option (List Nat) :=
  (db.blobs.find? (fun p => decide (p.1 = oid))).map (fun p => p.2)

/-- The chunked write loop of `_store_image_in_db` (lines 269–272):
`for i in range(0, len(image_data), 8192)` appending
`image_data[i:i+8192]` to the large object via `lowrite`.  `blob` is the
object's contents so far. -/
def lo_write_loop (image_data : List Nat) (i : Nat) (blob : List Nat) :
    List Nat :=
  if i < image_data.length then
    lo_write_loop image_data (i + 8192) (blob ++ ((image_data.drop i).take 8192))
  else blob
termination_by image_data.length - i
decreasing_by omega

/-- The chunked read loop of `get_image_as_base64` (lines 337–343):
`loread(fd, 8192)` until an empty chunk comes back.  `pos` is the large
object's read position, `acc` the accumulated `image_data`. -/
def lo_read_loop (blob : List Nat) (pos : Nat) (acc : List Nat) : List Nat :=
  let chunk := (blob.drop pos).take 8192
  if h : chunk.isEmpty then acc
  else lo_read_loop blob (pos + chunk.length) (acc ++ chunk)
termination_by blob.length - pos
decreasing_by
  simp only [List.isEmpty_eq_true, chunk] at h
  have h1 : pos < blob.length := by
    by_contra hc
    exact h (by simp [List.drop_eq_nil_of_le (by omega : blob.length ≤ pos)])
  have h2 : 0 < ((blob.drop pos).take 8192).length := by
    simp only [List.length_take, List.length_drop]
    omega
  omega

/-- `ImageService._store_image_in_db` (lines 236–300): unlink the old
large object when the row holds one, `lo_create` a fresh handle, write
the bytes in 8 KiB chunks, and update the row's image columns (the
`UPDATE ... WHERE id = %s` touches only rows with that id; when no such
row exists it updates nothing and the call still commits and returns
true). -/
def store_image_in_db (game_id : Int) (image_data : List Nat)
    (mime_type : String) (db : ImageDb) : Bool × ImageDb :=
  let old_oid := (db.rows.find? (fun r => decide (r.id = game_id))).bind
    (fun r => r.image_oid)
  let blobs1 :=
    match old_oid with
    | some o => db.blobs.filter (fun p => p.1 ≠ o)
    | none => db.blobs
  let oid := db.next_oid
  let content := lo_write_loop image_data 0 []
  let blobs2 := blobs1 ++ [(oid, content)]
  let rows1 := db.rows.map (fun r =>
    if r.id = game_id then
      { r with image_oid := some oid
               image_mimetype := some mime_type
               image_size := some image_data.length }
    else r)
  (true, { rows := rows1, blobs := blobs2, next_oid := oid + 1 })

/-- The base64 alphabet (RFC 4648), as used by Python's
`base64.b64encode`. -/
def b64chars : List Char :=
  "ABCDEFGHIJKLMNOPQRSTUVWXYZabcdefghijklmnopqrstuvwxyz0123456789+/".data

/-- The base64 character of a 6-bit group. -/
def b64char (s : Nat) : Char := b64chars.getD s '*'

/-- The 6-bit group of a base64 character, `none` for a character outside
the alphabet. -/
def b64index (c : Char) : Option Nat := b64chars.findIdx? (fun d => d == c)

/-- Standard base64 of a byte string (the output of
`base64.b64encode(image_data).decode('utf-8')`): 3-byte groups become 4
characters; a trailing 1- or 2-byte group is padded with `=`. -/
def b64encode : List Nat → List Char
  | [] => []
  | [a] => [b64char (a / 4), b64char (a % 4 * 16), '=', '=']
  | [a, b] =>
    [b64char (a / 4), b64char (a % 4 * 16 + b / 16), b64char (b % 16 * 4), '=']
  | a :: b :: c :: rest =>
    b64char (a / 4) :: b64char (a % 4 * 16 + b / 16) ::
      b64char (b % 16 * 4 + c / 64) :: b64char (c % 64) :: b64encode rest

/-- Modelled from the spec: the standard base64 decoder (the inverse
direction of RFC 4648, not part of the repository, which only encodes),
used to state the round-trip property "the base64-decoded payload equals
the stored bytes". -/
def b64decode : List Char → Option (List Nat)
  | [] => some []
  | c0 :: c1 :: c2 :: c3 :: rest =>
    if c2 = '=' ∧ c3 = '=' ∧ rest = [] then
      match b64index c0, b64index c1 with
      | some s0, some s1 => some [s0 * 4 + s1 / 16]
      | _, _ => none
    else if c3 = '=' ∧ rest = [] then
      match b64index c0, b64index c1, b64index c2 with
      | some s0, some s1, some s2 =>
        some [s0 * 4 + s1 / 16, s1 % 16 * 16 + s2 / 4]
      | _, _, _ => none
    else
      match b64index c0, b64index c1, b64index c2, b64index c3,
          b64decode rest with
      | some s0, some s1, some s2, some s3, some bs =>
        some ((s0 * 4 + s1 / 16) :: (s1 % 16 * 16 + s2 / 4) ::
          (s2 % 4 * 64 + s3) :: bs)
      | _, _, _, _, _ => none
  | _ => none

/-- `ImageService.get_image_as_base64` (lines 302–359): select the row
with this id and a non-null `image_oid`; read the large object back in
8 KiB chunks; on a non-empty payload return
`f"data:{mime_type};base64,{base64_data}"` (a null `image_mimetype`
renders as Python's `str(None)`), else `None`.  A missing large object
would make `lo_open` raise; the handler returns `None`. -/
def get_image_as_base64 (game_id : Int) (db : ImageDb) : Option String :=
  match db.rows.find? (fun r => decide (r.id = game_id) && r.image_oid.isSome) with
  | none => none
  | some r =>
    match r.image_oid with
    | none => none
    | some oid =>
      match db.lookupBlob oid with
      | none => none
      | some blob =>
        let image_data := lo_read_loop blob 0 []
        if image_data.isEmpty then none
        else
          some ("data:" ++ (match r.image_mimetype with
            | some m => m
            | none => "None") ++ ";base64," ++ (b64encode image_data).asString)

/-! ## Image download (src/utils/image_service.py, `download_and_store_image`) -/

/-- What `requests.get(image_url, timeout=30, stream=True)` produced: a
raised `RequestException` (connection error, timeout), or a response
with a status code, a `content-type` header value and a body. -/
inductive HttpResult where
  | networkError
  | response (status : Nat) (content_type : String) (body : List Nat)

/-- `requests.Response.raise_for_status` raises `HTTPError` exactly for
status codes in [400, 600). -/
def raise_for_status_raises (status : Nat) : Bool :=
  decide (400 ≤ status) && decide (status < 600)

/-- `ImageService.download_and_store_image` (lines 59–127); the result
and the number of network requests performed.  Rejects an empty or
`"N/A"` url before any network traffic; a `RequestException`, a 4xx/5xx
status (`raise_for_status`), a `content-type` not starting with
`"image/"`, a failed processing pipeline and a failed store all yield
false; every exception is caught, so a boolean always comes back.
`processed` / `aggressive` are the outcomes of `_process_image` /
`_aggressive_compress` on the body, `store_ok` the outcome of
`_store_image_in_db`. -/
def download_and_store_image (image_url : String) (http : HttpResult)
    (processed aggressive : Option (List Nat × String)) (store_ok : Bool) :
    Bool × Nat :=
  if image_url = "" || image_url = "N/A" then (false, 0)
  else
    match http with
    | .networkError => (false, 1)
    | .response status content_type _ =>
      if raise_for_status_raises status then (false, 1)
      else if !(startswith content_type "image/") then (false, 1)
      else
        match process_with_budget processed aggressive with
        | none => (false, 1)
        | some _ => (store_ok, 1)

/-! ## Game-level image guard (src/models/game.py, lines 544–574) -/

/-- `Game._has_local_image`: a `games` row with this id and a non-null
`image_oid` exists. -/
def has_local_image (game_id : Int) (db : ImageDb) : Bool :=
  db.rows.any (fun r => decide (r.id = game_id) && r.image_oid.isSome)

/-- `Game.download_and_store_image` (lines 544–561); returns the result,
the (possibly updated) storage and the number of network requests.
Guard 1: a falsy id (`None` or 0), a falsy `image_path` (empty string)
or the literal `"N/A"` short-circuit to false with no network traffic
and no storage access.  Guard 2: without `force_update`, an existing
local image short-circuits to true, leaving storage untouched.
Otherwise the work is delegated to
`ImageService.download_and_store_image`, abstracted as `service`. -/
def game_download_and_store_image (g : Game) (force_update : Bool)
    (db : ImageDb) (service : ImageDb → Bool × ImageDb × Nat) :
    Bool × ImageDb × Nat :=
  if !idTruthy g.id || g.image_path = "" || g.image_path = "N/A" then
    (false, db, 0)
  else if !force_update &&
      (match g.id with
       | some i => has_local_image i db
       | none => false) then
    (true, db, 0)
  else service db

/-! ## Decimal decoding helpers (for task-id distinctness) -/

/-- The numeric value of a decimal digit character. -/
def decDigit (c : Char) : Nat := c.toNat - 48

/-- The numeric value of a decimal digit string. -/
def digitsVal (ds : List Char) : Nat :=
  ds.foldl (fun a c => a * 10 + decDigit c) 0

/-!
# Theorems

Helper lemmas come first, then one theorem (with its witness or
counterexample) per specification claim.
-/

/-! ### Helper lemmas: `Nat.repr` is injective -/

theorem toDigitsCore_shift (b : Nat) :
    ∀ (fuel n : Nat) (ds : List Char),
      Nat.toDigitsCore b fuel n ds = Nat.toDigitsCore b fuel n [] ++ ds := by
  intro fuel
  induction fuel with
  | zero => intro n ds; simp [Nat.toDigitsCore]
  | succ f ih =>
    intro n ds
    simp only [Nat.toDigitsCore]
    by_cases h : n / b = 0
    · simp [h]
    · simp only [h, if_false]
      rw [ih (n / b) [Nat.digitChar (n % b)],
        ih (n / b) (Nat.digitChar (n % b) :: ds), List.append_assoc]
      rfl

theorem toDigitsCore_fuel (b : Nat) (hb : 2 ≤ b) :
    ∀ (f1 : Nat) (n : Nat) (f2 : Nat), n < f1 → n < f2 →
      Nat.toDigitsCore b f1 n [] = Nat.toDigitsCore b f2 n [] := by
  intro f1
  induction f1 with
  | zero => intro n f2 h1; omega
  | succ f ih =>
    intro n f2 h1 h2
    match f2, h2 with
    | g + 1, _ =>
      simp only [Nat.toDigitsCore]
      by_cases h : n / b = 0
      · simp [h]
      · simp only [h, if_false]
        rw [toDigitsCore_shift, toDigitsCore_shift b g]
        have hn : 0 < n := by
          rcases Nat.eq_zero_or_pos n with h0 | h0
          · exact absurd (by simp [h0]) h
          · exact h0
        have hlt : n / b < n := Nat.div_lt_self hn hb
        rw [ih (n / b) g (by omega) (by omega)]

theorem toDigits_eq (n : Nat) :
    Nat.toDigits 10 n = if n < 10 then [Nat.digitChar n]
      else Nat.toDigits 10 (n / 10) ++ [Nat.digitChar (n % 10)] := by
  by_cases h : n < 10
  · have hd : n / 10 = 0 := Nat.div_eq_of_lt h
    have hm : n % 10 = n := Nat.mod_eq_of_lt h
    simp only [h, if_true]
    show Nat.toDigitsCore 10 (n + 1) n [] = _
    simp [Nat.toDigitsCore, hd, hm]
  · have hd : n / 10 ≠ 0 := by omega
    simp only [h, if_false]
    show Nat.toDigitsCore 10 (n + 1) n [] = _
    simp only [Nat.toDigitsCore, hd, if_false]
    rw [toDigitsCore_shift]
    rw [toDigitsCore_fuel 10 (by omega) n (n / 10) (n / 10 + 1) (by omega)
      (by omega)]
    rfl

theorem decDigit_digitChar (d : Nat) (h : d < 10) :
    decDigit (Nat.digitChar d) = d := by
  interval_cases d <;> rfl

theorem digitsVal_append_digit (ds : List Char) (c : Char) :
    digitsVal (ds ++ [c]) = digitsVal ds * 10 + decDigit c := by
  simp [digitsVal, List.foldl_append]

theorem digitsVal_toDigits (n : Nat) : digitsVal (Nat.toDigits 10 n) = n := by
  induction n using Nat.strong_induction_on with
  | _ n ih =>
    rw [toDigits_eq]
    by_cases h : n < 10
    · simp only [h, if_true, digitsVal, List.foldl]
      rw [decDigit_digitChar n h]
      omega
    · have hlt : n / 10 < n := Nat.div_lt_self (by omega) (by omega)
      simp only [h, if_false]
      rw [digitsVal_append_digit, ih (n / 10) hlt,
        decDigit_digitChar (n % 10) (Nat.mod_lt n (by omega))]
      omega

theorem nat_repr_injective : Function.Injective Nat.repr := by
  intro m n h
  have hd : Nat.toDigits 10 m = Nat.toDigits 10 n :=
    congrArg String.data h
  have := congrArg digitsVal hd
  rwa [digitsVal_toDigits, digitsVal_toDigits] at this

/-! ### Helper lemmas: base64 round trip -/

theorem b64index_b64char (s : Nat) (h : s < 64) : b64index (b64char s) = some s := by
  interval_cases s <;> rfl

theorem b64char_ne_pad (s : Nat) (h : s < 64) : b64char s ≠ '=' := by
  interval_cases s <;> decide

theorem b64decode_b64encode :
    ∀ (l : List Nat), (∀ x ∈ l, x < 256) → b64decode (b64encode l) = some l
  | [], _ => rfl
  | [a], h => by
    have ha : a < 256 := h a (by simp)
    simp only [b64encode, b64decode]
    rw [if_pos ⟨trivial, trivial, trivial⟩,
      b64index_b64char (a / 4) (by omega),
      b64index_b64char (a % 4 * 16) (by omega)]
    simp only [Option.some.injEq, List.cons.injEq, and_true]
    omega
  | [a, b], h => by
    have ha : a < 256 := h a (by simp)
    have hb : b < 256 := h b (by simp)
    simp only [b64encode, b64decode]
    rw [if_neg (fun hc => b64char_ne_pad (b % 16 * 4) (by omega) hc.1),
      if_pos ⟨trivial, trivial⟩,
      b64index_b64char (a / 4) (by omega),
      b64index_b64char (a % 4 * 16 + b / 16) (by omega),
      b64index_b64char (b % 16 * 4) (by omega)]
    simp only [Option.some.injEq, List.cons.injEq, and_true]
    constructor <;> omega
  | a :: b :: c :: rest, h => by
    have ha : a < 256 := h a (by simp)
    have hb : b < 256 := h b (by simp)
    have hc : c < 256 := h c (by simp)
    have ih := b64decode_b64encode rest
      (fun x hx => h x (List.mem_cons_of_mem a
        (List.mem_cons_of_mem b (List.mem_cons_of_mem c hx))))
    simp only [b64encode, b64decode]
    rw [if_neg (fun hp => b64char_ne_pad (b % 16 * 4 + c / 64) (by omega) hp.1),
      if_neg (fun hp => b64char_ne_pad (c % 64) (by omega) hp.1),
      b64index_b64char (a / 4) (by omega),
      b64index_b64char (a % 4 * 16 + b / 16) (by omega),
      b64index_b64char (b % 16 * 4 + c / 64) (by omega),
      b64index_b64char (c % 64) (by omega), ih]
    simp only [Option.some.injEq, List.cons.injEq, and_true]
    refine ⟨by omega, by omega, by omega⟩

/-! ### Helper lemmas: chunked large-object write and read -/

theorem drop_take_length (l : List Nat) (n : Nat) :
    l.drop ((l.take n).length) = l.drop n := by
  rw [List.length_take]
  rcases Nat.le_total n l.length with h | h
  · rw [Nat.min_eq_left h]
  · rw [Nat.min_eq_right h, List.drop_eq_nil_of_le h,
      List.drop_eq_nil_of_le (Nat.le_refl _)]

theorem lo_write_loop_spec (image_data : List Nat) (i : Nat) (blob : List Nat) :
    lo_write_loop image_data i blob = blob ++ image_data.drop i := by
  rw [lo_write_loop]
  by_cases h : i < image_data.length
  · rw [if_pos h,
      lo_write_loop_spec image_data (i + 8192)
        (blob ++ ((image_data.drop i).take 8192)),
      List.append_assoc]
    congr 1
    have hdd : image_data.drop (i + 8192) = (image_data.drop i).drop 8192 := by
      rw [List.drop_drop]
    rw [hdd, List.take_append_drop]
  · rw [if_neg h, List.drop_eq_nil_of_le (by omega), List.append_nil]
termination_by image_data.length - i
decreasing_by omega

theorem lo_read_loop_spec (blob : List Nat) (pos : Nat) (acc : List Nat) :
    lo_read_loop blob pos acc = acc ++ blob.drop pos := by
  rw [lo_read_loop]
  by_cases h : ((blob.drop pos).take 8192).isEmpty
  · simp only [h, dite_true]
    have h0 : blob.drop pos = [] := by
      simp only [List.isEmpty_eq_true, List.take_eq_nil_iff] at h
      rcases h with h | h
      · omega
      · exact h
    rw [h0, List.append_nil]
  · simp only [dif_neg h]
    rw [lo_read_loop_spec blob (pos + ((blob.drop pos).take 8192).length)
      (acc ++ (blob.drop pos).take 8192), List.append_assoc]
    congr 1
    have hdd : blob.drop (pos + ((blob.drop pos).take 8192).length) =
        (blob.drop pos).drop (((blob.drop pos).take 8192).length) := by
      rw [List.drop_drop]
    rw [hdd, drop_take_length, List.take_append_drop]
termination_by blob.length - pos
decreasing_by
  simp only [List.isEmpty_eq_true, List.take_eq_nil_iff, not_or] at h
  have h1 : pos < blob.length := by
    by_contra hcon
    exact h.2 (List.drop_eq_nil_of_le (by omega))
  simp only [List.length_take, List.length_drop]
  omega

/-! ### Helper lemmas: compression ladders -/

theorem try_quality_ladder_le (encode : Nat → List Nat) :
    ∀ (qs : List Nat) (d : List Nat),
      try_quality_ladder encode qs = some d → d.length ≤ MAX_IMAGE_SIZE
  | [], d, h => by simp [try_quality_ladder] at h
  | q :: qs, d, h => by
    simp only [try_quality_ladder] at h
    by_cases hc : (encode q).length ≤ MAX_IMAGE_SIZE
    · rw [if_pos hc] at h
      cases h
      exact hc
    · rw [if_neg hc] at h
      exact try_quality_ladder_le encode qs d h

theorem try_size_ladder_le (encode : Nat × Nat → List Nat) :
    ∀ (szs : List (Nat × Nat)) (d : List Nat),
      try_size_ladder encode szs = some d → d.length ≤ MAX_IMAGE_SIZE
  | [], d, h => by simp [try_size_ladder] at h
  | sz :: szs, d, h => by
    simp only [try_size_ladder] at h
    by_cases hc : (encode sz).length ≤ MAX_IMAGE_SIZE
    · rw [if_pos hc] at h
      cases h
      exact hc
    · rw [if_neg hc] at h
      exact try_size_ladder_le encode szs d h

theorem aggressive_compress_le (decode_ok : Bool) (encode_quality : Nat → List Nat)
    (encode_size : Nat × Nat → List Nat) (d : List Nat) (m : String)
    (h : aggressive_compress decode_ok encode_quality encode_size = some (d, m)) :
    d.length ≤ MAX_IMAGE_SIZE := by
  simp only [aggressive_compress] at h
  by_cases hd : decode_ok
  · rw [if_pos hd] at h
    rcases hq : try_quality_ladder encode_quality [60, 50, 40, 30, 20] with _ | dq
    · rw [hq] at h
      rcases hs : try_size_ladder encode_size [(150, 150), (100, 100), (80, 80)] with _ | ds
      · rw [hs] at h
        cases h
      · rw [hs] at h
        cases h
        exact try_size_ladder_le encode_size _ _ hs
    · rw [hq] at h
      cases h
      exact try_quality_ladder_le encode_quality _ _ hq
  · rw [if_neg hd] at h
    cases h

/-! ### Helper lemmas: the name-search detail loop -/

theorem search_detail_loop_spec (cancelled : Nat → Bool)
    (fetch : Int → Option Game) :
    ∀ (items : List Int) (step : Nat) (acc : List Game),
      ∃ m, m ≤ items.length ∧
        search_detail_loop cancelled fetch items step acc =
          acc ++ (items.take m).filterMap
            (fun i => (fetch i).map (fun g => { g with source := "BoardGameGeek" })) ∧
        (∀ j, j < m → cancelled (step + j) = false)
  | [], step, acc =>
    ⟨0, by omega, by simp [search_detail_loop],
      fun j hj => absurd hj (by omega)⟩
  | bgg_id :: rest, step, acc => by
    by_cases hcan : cancelled step
    · refine ⟨0, by omega, ?_, fun j hj => absurd hj (by omega)⟩
      simp [search_detail_loop, hcan]
    · rcases hfetch : fetch bgg_id with _ | g
      · obtain ⟨m, hm, heq, hcanc⟩ :=
          search_detail_loop_spec cancelled fetch rest (step + 1) acc
        refine ⟨m + 1, by simp; omega, ?_, ?_⟩
        · simp only [search_detail_loop, hcan, Bool.false_eq_true, if_false,
            hfetch]
          rw [heq]
          simp [hfetch]
        · intro j hj
          rcases j with _ | j'
          · simpa using hcan
          · have := hcanc j' (by omega)
            have harith : step + (j' + 1) = step + 1 + j' := by omega
            rw [harith]
            exact this
      · obtain ⟨m, hm, heq, hcanc⟩ :=
          search_detail_loop_spec cancelled fetch rest (step + 1)
            (acc ++ [{ g with source := "BoardGameGeek" }])
        refine ⟨m + 1, by simp; omega, ?_, ?_⟩
        · simp only [search_detail_loop, hcan, Bool.false_eq_true, if_false,
            hfetch]
          rw [heq]
          simp [hfetch]
        · intro j hj
          rcases j with _ | j'
          · simpa using hcan
          · have := hcanc j' (by omega)
            have harith : step + (j' + 1) = step + 1 + j' := by omega
            rw [harith]
            exact this

/-! ### Helper lemmas: counting with a complementary filter split -/

theorem countP_filter_split (l : List Game) (p q : Game → Bool) :
    l.countP p =
      (l.filter q).countP p + (l.filter (fun a => !(q a))).countP p := by
  induction l with
  | nil => simp
  | cons a t ih =>
    by_cases hq : q a <;> by_cases hp : p a <;>
      simp [List.countP_cons, List.filter_cons, hq, hp, ih] <;> omega

/-! ### Claim C1 -/

/-- C1: for any single run of the coordinator's execution wrapper
`_execute_background_task` — and hence for any sequence of start/cancel
operations on a single task id, each start of which runs the wrapper
exactly once — the registered completion callback is invoked at most
once, and it is never invoked when cancellation was observed at the
pre-execution checkpoint or at the post-execution checkpoint. -/
theorem execute_background_task_callback_at_most_once {α : Type}
    (pre post guard has_callback : Bool) (work : WorkOutcome α) :
    execute_callback_invocations pre work post guard has_callback ≤ 1 ∧
    (pre = true ∨ post = true →
      execute_callback_invocations pre work post guard has_callback = 0) := by
  unfold execute_callback_invocations
  constructor
  · cases pre <;> cases work <;> cases post <;> cases guard <;>
      cases has_callback <;> simp
  · rintro (h | h)
    · subst h
      simp
    · subst h
      cases pre <;> cases work <;> simp

/-- Witness for C1: a cancelled-before-start task with a registered
callback whose work function returned normally fires the callback zero
times. -/
theorem execute_background_task_callback_at_most_once_witness :
    execute_callback_invocations true (WorkOutcome.ok ([] : List Game))
      false false true ≤ 1 ∧
    execute_callback_invocations true (WorkOutcome.ok ([] : List Game))
      false false true = 0 :=
  ⟨(execute_background_task_callback_at_most_once true false false true
      (WorkOutcome.ok [])).1,
   (execute_background_task_callback_at_most_once true false false true
      (WorkOutcome.ok [])).2 (Or.inl rfl)⟩

/-! ### Claim C2 -/

/-- C2: the processing pipeline (`_process_image`) followed — when its
output exceeds the 2 MiB budget — by aggressive compression
(`_aggressive_compress`) either returns bytes of length at most
`MAX_IMAGE_SIZE` or returns `none`: whatever it returns as `some` fits
the byte budget, for every decode outcome and every behaviour of the
underlying JPEG encoder. -/
theorem compression_respects_budget (decode_ok : Bool)
    (encode_quality : Nat → List Nat) (encode_size : Nat × Nat → List Nat)
    (processed : Option (List Nat × String)) (d : List Nat) (m : String)
    (h : process_with_budget processed
        (aggressive_compress decode_ok encode_quality encode_size) =
      some (d, m)) :
    d.length ≤ MAX_IMAGE_SIZE := by
  rcases processed with _ | ⟨d0, m0⟩
  · simp [process_with_budget] at h
  · simp only [process_with_budget] at h
    by_cases hb : d0.length > MAX_IMAGE_SIZE
    · rw [if_pos hb] at h
      exact aggressive_compress_le _ _ _ _ _ h
    · rw [if_neg hb] at h
      simp only [Option.some.injEq, Prod.mk.injEq] at h
      obtain ⟨rfl, rfl⟩ := h
      omega

/-- Witness for C2: an over-budget processed output is replaced by the
quality ladder's first fitting candidate, which fits the budget. -/
theorem compression_respects_budget_witness :
    ([5] : List Nat).length ≤ MAX_IMAGE_SIZE :=
  compression_respects_budget true (fun _ => [5]) (fun _ => [])
    (some (List.replicate (MAX_IMAGE_SIZE + 1) 0, "image/jpeg")) [5]
    "image/jpeg"
    (by
      simp only [process_with_budget]
      rw [if_pos (by rw [List.length_replicate]; simp [MAX_IMAGE_SIZE])]
      decide)

/-! ### Claim C4 -/

/-- C4: the name-search detail loop processes candidates in listing
order, consulting the cancellation checker before each detail fetch; its
result is always the detail records of some initial segment of the
candidate list (so its length never exceeds N), and when cancellation is
signalled after item k — the checker answers true from its (k+1)-st
consultation on — the loop stops and returns the partial list
accumulated so far, of length at most k+1, rather than failing. -/
theorem name_search_cancellation_partial_result (cancelled : Nat → Bool)
    (fetch : Int → Option Game) (items : List Int) (k : Nat)
    (hk : ∀ j, k + 1 ≤ j → cancelled j = true) :
    (search_bgg_by_name_details cancelled fetch items).length ≤ items.length ∧
    (search_bgg_by_name_details cancelled fetch items).length ≤ k + 1 ∧
    ∃ m, m ≤ min (k + 1) items.length ∧
      search_bgg_by_name_details cancelled fetch items =
        (items.take m).filterMap
          (fun i => (fetch i).map
            (fun g => { g with source := "BoardGameGeek" })) := by
  obtain ⟨m, hm, heq, hcanc⟩ := search_detail_loop_spec cancelled fetch items 0 []
  have heq' : search_bgg_by_name_details cancelled fetch items =
      (items.take m).filterMap
        (fun i => (fetch i).map (fun g => { g with source := "BoardGameGeek" })) := by
    rw [search_bgg_by_name_details, heq, List.nil_append]
  have hmk : m ≤ k + 1 := by
    by_contra hgt
    have h1 := hcanc (k + 1) (by omega)
    have h2 := hk (k + 1) (by omega)
    rw [Nat.zero_add] at h1
    rw [h1] at h2
    cases h2
  have hlen : ((items.take m).filterMap
      (fun i => (fetch i).map
        (fun g => { g with source := "BoardGameGeek" }))).length ≤ m := by
    calc ((items.take m).filterMap _).length ≤ (items.take m).length :=
          List.length_filterMap_le _ _
      _ ≤ m := by
          rw [List.length_take]
          omega
  have hlen2 : (items.take m).length ≤ items.length := by
    rw [List.length_take]
    omega
  refine ⟨?_, ?_, m, by omega, heq'⟩
  · rw [heq']
    calc ((items.take m).filterMap _).length ≤ (items.take m).length :=
          List.length_filterMap_le _ _
      _ ≤ items.length := hlen2
  · rw [heq']
    omega

/-- Witness for C4: three candidates, cancellation signalled after
item 1 (checker answers true from its second consultation on). -/
theorem name_search_cancellation_partial_result_witness :
    (search_bgg_by_name_details (fun j => decide (2 ≤ j))
      (fun i => some (mkGame "G" 0 1 1 "" (some i) false none ""))
      [10, 20, 30]).length ≤ [10, 20, 30].length ∧
    (search_bgg_by_name_details (fun j => decide (2 ≤ j))
      (fun i => some (mkGame "G" 0 1 1 "" (some i) false none ""))
      [10, 20, 30]).length ≤ 1 + 1 ∧
    ∃ m, m ≤ min (1 + 1) [10, 20, 30].length ∧
      search_bgg_by_name_details (fun j => decide (2 ≤ j))
        (fun i => some (mkGame "G" 0 1 1 "" (some i) false none ""))
        [10, 20, 30] =
      ([10, 20, 30].take m).filterMap
        (fun i => ((fun i => some (mkGame "G" 0 1 1 "" (some i) false none "")) i).map
          (fun g => { g with source := "BoardGameGeek" })) :=
  name_search_cancellation_partial_result (fun j => decide (2 ≤ j))
    (fun i => some (mkGame "G" 0 1 1 "" (some i) false none ""))
    [10, 20, 30] 1 (fun j hj => decide_eq_true hj)

/-! ### Claim C3 -/

/-- C3: when the detailed-completion callback fires with a non-empty
detailed result set, every pre-existing entry whose id occurs among the
detailed ids is removed from both presented lists (whatever its
provenance), and each detailed record is inserted into the list selected
by its expansion flag — so the records carrying such an id afterwards
are exactly the detailed ones (one per id when the detailed set lists
the id once); when the detailed set is empty, the merge instead returns
the re-run local query. -/
theorem merge_replace_by_id
    (local_results local_expansions detailed_games : List Game)
    (requery : List Game × List Game) :
    (detailed_games = [] →
      on_bgg_complete local_results local_expansions detailed_games requery =
        requery) ∧
    (∀ i, i ∈ detailed_games.map (fun g => g.id) →
      (((on_bgg_complete local_results local_expansions detailed_games
            requery).1 ++
        (on_bgg_complete local_results local_expansions detailed_games
            requery).2).countP (fun g => decide (g.id = i)) =
        detailed_games.countP (fun g => decide (g.id = i))) ∧
      (∀ g, g ∈ (on_bgg_complete local_results local_expansions detailed_games
            requery).1 ++
          (on_bgg_complete local_results local_expansions detailed_games
            requery).2 → g.id = i → g ∈ detailed_games) ∧
      (∀ g, g ∈ (on_bgg_complete local_results local_expansions detailed_games
            requery).1 → g.id = i → g.is_expansion = 0) ∧
      (∀ g, g ∈ (on_bgg_complete local_results local_expansions detailed_games
            requery).2 → g.id = i → g.is_expansion ≠ 0)) := by
  constructor
  · intro h
    subst h
    rfl
  · intro i hi
    have hne : detailed_games.isEmpty = false := by
      cases detailed_games with
      | nil => simp at hi
      | cons a t => rfl
    simp only [on_bgg_complete, hne, Bool.false_eq_true, if_false]
    have hkept : ∀ (l : List Game),
        (l.filter (fun g =>
          !(decide (g.id ∈ detailed_games.map (fun g => g.id))))).countP
            (fun g => decide (g.id = i)) = 0 := by
      intro l
      rw [List.countP_eq_zero]
      intro g hg
      have hcond := (List.mem_filter.mp hg).2
      simp only [Bool.not_eq_true', decide_eq_false_iff_not] at hcond
      simp only [decide_eq_true_eq]
      intro hgi
      exact hcond (hgi ▸ hi)
    refine ⟨?_, ?_, ?_, ?_⟩
    · rw [List.countP_append, List.countP_append, List.countP_append,
        hkept local_results, hkept local_expansions]
      have hsplit := countP_filter_split detailed_games
        (fun g => decide (g.id = i)) (fun g => decide (g.is_expansion = 0))
      have hpred : (fun g : Game => decide (g.is_expansion ≠ 0)) =
          (fun g : Game => !(decide (g.is_expansion = 0))) := by
        funext g
        simp [decide_not]
      rw [hpred]
      omega
    · intro g hg hgi
      rcases List.mem_append.mp hg with h1 | h1 <;>
        rcases List.mem_append.mp h1 with hk | hb
      · have hcond := (List.mem_filter.mp hk).2
        simp only [Bool.not_eq_true', decide_eq_false_iff_not] at hcond
        exact absurd (hgi ▸ hi) hcond
      · exact (List.mem_filter.mp hb).1
      · have hcond := (List.mem_filter.mp hk).2
        simp only [Bool.not_eq_true', decide_eq_false_iff_not] at hcond
        exact absurd (hgi ▸ hi) hcond
      · exact (List.mem_filter.mp hb).1
    · intro g hg hgi
      rcases List.mem_append.mp hg with hk | hb
      · have hcond := (List.mem_filter.mp hk).2
        simp only [Bool.not_eq_true', decide_eq_false_iff_not] at hcond
        exact absurd (hgi ▸ hi) hcond
      · exact of_decide_eq_true (List.mem_filter.mp hb).2
    · intro g hg hgi
      rcases List.mem_append.mp hg with hk | hb
      · have hcond := (List.mem_filter.mp hk).2
        simp only [Bool.not_eq_true', decide_eq_false_iff_not] at hcond
        exact absurd (hgi ▸ hi) hcond
      · exact of_decide_eq_true (List.mem_filter.mp hb).2

/-- Witness for C3 (the spec's id-42 example): a coarse preview record
for id 42 plus a detailed record for id 42 merge to a state where the
records carrying id 42 are counted exactly as in the detailed set
(i.e. once). -/
theorem merge_replace_by_id_witness :
    ((on_bgg_complete
        [mkGame "Catan" 0 0 0 "" (some 42) false (some 1995)
          "BoardGameGeek (Search)"] []
        [mkGame "Catan" (74 / 10) 3 4 "u" (some 42) false (some 1995)
          "BoardGameGeek"] ([], [])).1 ++
      (on_bgg_complete
        [mkGame "Catan" 0 0 0 "" (some 42) false (some 1995)
          "BoardGameGeek (Search)"] []
        [mkGame "Catan" (74 / 10) 3 4 "u" (some 42) false (some 1995)
          "BoardGameGeek"] ([], [])).2).countP
        (fun g => decide (g.id = some 42)) =
      [mkGame "Catan" (74 / 10) 3 4 "u" (some 42) false (some 1995)
        "BoardGameGeek"].countP (fun g => decide (g.id = some 42)) :=
  ((merge_replace_by_id
      [mkGame "Catan" 0 0 0 "" (some 42) false (some 1995)
        "BoardGameGeek (Search)"] []
      [mkGame "Catan" (74 / 10) 3 4 "u" (some 42) false (some 1995)
        "BoardGameGeek"] ([], [])).2 (some 42) (by simp [mkGame])).1

/-! ### Claim C5: rounding helpers, then the parse rules -/

theorem pyRoundInt_abs_le (x : ℚ) : |(pyRoundInt x : ℚ) - x| ≤ 1 / 2 := by
  have h1 : (⌊x⌋ : ℚ) ≤ x := Int.floor_le x
  have h2 : x < ⌊x⌋ + 1 := Int.lt_floor_add_one x
  simp only [pyRoundInt]
  split_ifs with ha hb hc
  · rw [abs_of_nonpos (by linarith)]
    linarith
  · push_cast
    rw [abs_of_nonneg (by linarith)]
    linarith
  · have hx : x - ⌊x⌋ = 1 / 2 := le_antisymm (not_lt.mp hb) (not_lt.mp ha)
    rw [abs_of_nonpos (by linarith)]
    linarith
  · have hx : x - ⌊x⌋ = 1 / 2 := le_antisymm (not_lt.mp hb) (not_lt.mp ha)
    push_cast
    rw [abs_of_nonneg (by linarith)]
    linarith

theorem round1_den (q : ℚ) : (10 * round1 q).den = 1 := by
  unfold round1
  have h : (10 : ℚ) * ((pyRoundInt (q * 10) : ℚ) / 10) =
      (pyRoundInt (q * 10) : ℚ) := by
    field_simp
  rw [h]
  exact Rat.den_intCast _

theorem round1_abs_le (q : ℚ) : |round1 q - q| ≤ 1 / 20 := by
  unfold round1
  have h := pyRoundInt_abs_le (q * 10)
  have heq : (pyRoundInt (q * 10) : ℚ) / 10 - q =
      ((pyRoundInt (q * 10) : ℚ) - q * 10) / 10 := by ring
  rw [heq, abs_div, abs_of_pos (by norm_num : (0 : ℚ) < 10)]
  linarith

theorem round1_zero : round1 0 = 0 := by
  have h0 : (0 : ℚ) * 10 = 0 := by norm_num
  unfold round1 pyRoundInt
  rw [h0]
  norm_num

/-- C5: the detail parser's field rules — the average rating is the raw
value rounded to one decimal place (a multiple of 1/10 within 1/20 of
the raw value) and 0.0 when the field is absent; min and max players
default to 1 when absent; the expansion flag is 1 exactly when a
category link with the catalog's literal expansion value is present;
and the year parses to `none` on absent or invalid input without an
exception escaping. -/
theorem bgg_detail_parse_rules (bgg_id : Int) (item : ThingItem) (g : Game)
    (h : parse_bgg_thing bgg_id (some item) = some g) :
    (item.average = Attr.absent → g.avg_rating = 0) ∧
    (∀ q, item.average = Attr.val q →
      g.avg_rating = round1 q ∧ (10 * g.avg_rating).den = 1 ∧
        |g.avg_rating - q| ≤ 1 / 20) ∧
    (item.minplayers = Attr.absent → g.min_players = 1) ∧
    (item.maxplayers = Attr.absent → g.max_players = 1) ∧
    (g.is_expansion = 1 ↔ ∃ l ∈ item.links,
      l.type = "boardgamecategory" ∧ l.value = "Expansion for Base-game") ∧
    (item.yearpublished = Attr.absent ∨ item.yearpublished = Attr.invalid →
      g.yearpublished = none) := by
  simp only [parse_bgg_thing] at h
  rcases hname : item.primaryName with _ | name
  · rw [hname] at h
    cases h
  · rw [hname] at h
    rcases havg : attrOrDefault item.average 0 with _ | rating
    · rw [havg] at h
      cases h
    · rw [havg] at h
      rcases hmin : attrOrDefault item.minplayers 1 with _ | minp
      · rw [hmin] at h
        cases h
      · rw [hmin] at h
        rcases hmax : attrOrDefault item.maxplayers 1 with _ | maxp
        · rw [hmax] at h
          cases h
        · rw [hmax] at h
          injection h with hg
          subst hg
          refine ⟨?_, ?_, ?_, ?_, ?_, ?_⟩
          · intro habs
            rw [habs] at havg
            simp only [attrOrDefault, Option.some.injEq] at havg
            simp only [mkGame]
            rw [← havg]
            exact round1_zero
          · intro q hq
            rw [hq] at havg
            simp only [attrOrDefault, Option.some.injEq] at havg
            simp only [mkGame]
            rw [← havg]
            exact ⟨rfl, round1_den q, round1_abs_le q⟩
          · intro habs
            rw [habs] at hmin
            simp only [attrOrDefault, Option.some.injEq] at hmin
            simp only [mkGame]
            rw [← hmin]
          · intro habs
            rw [habs] at hmax
            simp only [attrOrDefault, Option.some.injEq] at hmax
            simp only [mkGame]
            rw [← hmax]
          · simp only [mkGame]
            constructor
            · intro hexp
              by_cases hany : item.links.any (fun l =>
                  l.type == "boardgamecategory" &&
                    l.value == "Expansion for Base-game")
              · obtain ⟨l, hl, hcond⟩ := List.any_eq_true.mp hany
                rw [Bool.and_eq_true] at hcond
                exact ⟨l, hl, eq_of_beq hcond.1, eq_of_beq hcond.2⟩
              · rw [if_neg hany] at hexp
                cases hexp
            · rintro ⟨l, hl, h1, h2⟩
              rw [if_pos (List.any_eq_true.mpr ⟨l, hl, by
                rw [Bool.and_eq_true]
                exact ⟨beq_of_eq h1, beq_of_eq h2⟩⟩)]
          · intro hy
            simp only [mkGame]
            rcases hy with hy | hy <;> rw [hy]

/-- Witness for C5: a concrete response with an expansion category link,
an absent rating, absent min players and an invalid year parses to a
record with rating 0.0, min players 1, expansion flag 1 and no year. -/
theorem bgg_detail_parse_rules_witness :
    (mkGame "Catan" (round1 0) 1 4 "" (some 13) true none "").avg_rating = 0 ∧
    (mkGame "Catan" (round1 0) 1 4 "" (some 13) true none "").min_players = 1 ∧
    (mkGame "Catan" (round1 0) 1 4 "" (some 13) true none "").yearpublished =
      none ∧
    ((mkGame "Catan" (round1 0) 1 4 "" (some 13) true none
        "").is_expansion = 1 ↔
      ∃ l ∈ [(⟨"boardgamecategory", "Expansion for Base-game"⟩ : ThingLink)],
        l.type = "boardgamecategory" ∧ l.value = "Expansion for Base-game") :=
  ⟨(bgg_detail_parse_rules 13
      ⟨some "Catan", Attr.absent, Attr.absent, Attr.val 4, none,
        [⟨"boardgamecategory", "Expansion for Base-game"⟩], Attr.invalid⟩
      (mkGame "Catan" (round1 0) 1 4 "" (some 13) true none "") rfl).1 rfl,
   (bgg_detail_parse_rules 13
      ⟨some "Catan", Attr.absent, Attr.absent, Attr.val 4, none,
        [⟨"boardgamecategory", "Expansion for Base-game"⟩], Attr.invalid⟩
      (mkGame "Catan" (round1 0) 1 4 "" (some 13) true none "") rfl).2.2.1 rfl,
   (bgg_detail_parse_rules 13
      ⟨some "Catan", Attr.absent, Attr.absent, Attr.val 4, none,
        [⟨"boardgamecategory", "Expansion for Base-game"⟩], Attr.invalid⟩
      (mkGame "Catan" (round1 0) 1 4 "" (some 13) true none "") rfl).2.2.2.2.2
     (Or.inr rfl),
   (bgg_detail_parse_rules 13
      ⟨some "Catan", Attr.absent, Attr.absent, Attr.val 4, none,
        [⟨"boardgamecategory", "Expansion for Base-game"⟩], Attr.invalid⟩
      (mkGame "Catan" (round1 0) 1 4 "" (some 13) true none "") rfl).2.2.2.2.1⟩

/-! ### Claim C6: upsert helpers, then the idempotence theorem -/

theorem parse_bgg_thing_id (bgg_id : Int) (resp : Option ThingItem) (g : Game)
    (h : parse_bgg_thing bgg_id resp = some g) : g.id = some bgg_id := by
  rcases resp with _ | item
  · cases h
  · simp only [parse_bgg_thing] at h
    rcases hname : item.primaryName with _ | name
    · rw [hname] at h
      cases h
    · rw [hname] at h
      rcases havg : attrOrDefault item.average 0 with _ | rating
      · rw [havg] at h
        cases h
      · rw [havg] at h
        rcases hmin : attrOrDefault item.minplayers 1 with _ | minp
        · rw [hmin] at h
          cases h
        · rw [hmin] at h
          rcases hmax : attrOrDefault item.maxplayers 1 with _ | maxp
          · rw [hmax] at h
            cases h
          · rw [hmax] at h
            injection h with hg
            subst hg
            rfl

theorem countP_map_update (db : List GameRow) (i : Int) (g : Game) :
    (db.map (fun r => if r.id = i then rowOf i g else r)).countP
      (fun r => decide (r.id = i)) =
    db.countP (fun r => decide (r.id = i)) := by
  induction db with
  | nil => rfl
  | cons r t ih =>
    simp only [List.map_cons, List.countP_cons]
    rw [ih]
    by_cases hr : r.id = i
    · rw [if_pos hr]
      simp [rowOf, hr]
    · rw [if_neg hr]

theorem save_to_db_countP (g : Game) (i : Int) (n : Int) (db : List GameRow)
    (hg : g.id = some i) (hi : i ≠ 0)
    (hdb : db.countP (fun r => decide (r.id = i)) ≤ 1) :
    ((save_to_db g n db).2).countP (fun r => decide (r.id = i)) = 1 ∧
    ∀ r ∈ (save_to_db g n db).2, r.id = i → r = rowOf i g := by
  simp only [save_to_db, hg]
  rw [if_neg hi]
  by_cases hex : db.any (fun r => decide (r.id = i)) = true
  · rw [if_pos hex]
    constructor
    · rw [countP_map_update]
      have hpos : 0 < db.countP (fun r => decide (r.id = i)) := by
        rw [List.countP_pos]
        obtain ⟨r, hr, hpr⟩ := List.any_eq_true.mp hex
        exact ⟨r, hr, hpr⟩
      omega
    · intro r hr hri
      obtain ⟨r0, hr0, hfr⟩ := List.mem_map.mp hr
      by_cases h0 : r0.id = i
      · rw [if_pos h0] at hfr
        exact hfr.symm
      · rw [if_neg h0] at hfr
        subst hfr
        exact absurd hri h0
  · rw [if_neg hex]
    have hzero : db.countP (fun r => decide (r.id = i)) = 0 := by
      rw [List.countP_eq_zero]
      intro a ha hpa
      exact hex (List.any_eq_true.mpr ⟨a, ha, hpa⟩)
    constructor
    · rw [List.countP_append, hzero, List.countP_cons]
      simp [rowOf]
    · intro r hr hri
      rcases List.mem_append.mp hr with hmem | hmem
      · exfalso
        have := List.countP_eq_zero.mp hzero r hmem
        simp only [decide_eq_true_eq] at this
        exact this hri
      · simpa using hmem

/-- C6: calling the detail fetch for the same id twice in succession with
the same catalog response leaves exactly one cache row for that id, and
that row holds the (second) call's values — `save_to_db` is an upsert
keyed by the id (update when a row with the id exists, insert
otherwise). -/
theorem detail_fetch_upsert_idempotent (bgg_id : Int) (resp : Option ThingItem)
    (n1 n2 : Int) (db : List GameRow) (g : Game)
    (hparse : parse_bgg_thing bgg_id resp = some g) (hi : bgg_id ≠ 0)
    (hdb : db.countP (fun r => decide (r.id = bgg_id)) ≤ 1) :
    ((get_bgg_game_details_db bgg_id resp n2
        (get_bgg_game_details_db bgg_id resp n1 db).2).2).countP
      (fun r => decide (r.id = bgg_id)) = 1 ∧
    ∀ r ∈ (get_bgg_game_details_db bgg_id resp n2
        (get_bgg_game_details_db bgg_id resp n1 db).2).2,
      r.id = bgg_id → r = rowOf bgg_id g := by
  have hgid : g.id = some bgg_id := parse_bgg_thing_id bgg_id resp g hparse
  simp only [get_bgg_game_details_db, hparse]
  have s1 := save_to_db_countP g bgg_id n1 db hgid hi hdb
  exact save_to_db_countP g bgg_id n2 (save_to_db g n1 db).2 hgid hi
    (le_of_eq s1.1)

/-- Witness for C6: fetching id 13 twice against the same minimal
response leaves exactly one row for id 13. -/
theorem detail_fetch_upsert_idempotent_witness :
    ((get_bgg_game_details_db 13
        (some ⟨some "Catan", Attr.absent, Attr.absent, Attr.absent, none, [],
          Attr.absent⟩) 0
        (get_bgg_game_details_db 13
          (some ⟨some "Catan", Attr.absent, Attr.absent, Attr.absent, none, [],
            Attr.absent⟩) 0 []).2).2).countP
      (fun r => decide (r.id = 13)) = 1 ∧
    ∀ r ∈ (get_bgg_game_details_db 13
        (some ⟨some "Catan", Attr.absent, Attr.absent, Attr.absent, none, [],
          Attr.absent⟩) 0
        (get_bgg_game_details_db 13
          (some ⟨some "Catan", Attr.absent, Attr.absent, Attr.absent, none, [],
            Attr.absent⟩) 0 []).2).2,
      r.id = 13 →
        r = rowOf 13 (mkGame "Catan" (round1 0) 1 1 "" (some 13) false none "") :=
  detail_fetch_upsert_idempotent 13
    (some ⟨some "Catan", Attr.absent, Attr.absent, Attr.absent, none, [],
      Attr.absent⟩) 0 0 []
    (mkGame "Catan" (round1 0) 1 1 "" (some 13) false none "") rfl
    (by decide) (by decide)

/-! ### Claim C7: storage round trip -/

theorem find_store_rows (rows : List ImageRow) (gid : Int) (oid : Nat)
    (mt : String) (sz : Nat) (hrow : ∃ r ∈ rows, r.id = gid) :
    ∃ rfound,
      (rows.map (fun r => if r.id = gid then
          { r with image_oid := some oid, image_mimetype := some mt,
                   image_size := some sz } else r)).find?
        (fun r => decide (r.id = gid) && r.image_oid.isSome) = some rfound ∧
      rfound.image_oid = some oid ∧ rfound.image_mimetype = some mt := by
  induction rows with
  | nil =>
    obtain ⟨r, hr, _⟩ := hrow
    cases hr
  | cons r t ih =>
    by_cases hr : r.id = gid
    · refine ⟨{ r with image_oid := some oid, image_mimetype := some mt, image_size := some sz }, ?_, rfl, rfl⟩
      rw [List.map_cons, if_pos hr, List.find?_cons_of_pos _ (by simp [hr])]
    · have hrow' : ∃ r' ∈ t, r'.id = gid := by
        obtain ⟨r', hmem, hid⟩ := hrow
        rcases List.mem_cons.mp hmem with heq | hmem'
        · exact absurd (heq ▸ hid) hr
        · exact ⟨r', hmem', hid⟩
      obtain ⟨rf, hfind, ho, hm⟩ := ih hrow'
      refine ⟨rf, ?_, ho, hm⟩
      rw [List.map_cons, if_neg hr, List.find?_cons_of_neg _ (by simp [hr]),
        hfind]

theorem lookup_fresh_blob (blobs : List (Nat × List Nat)) (oid : Nat)
    (content : List Nat) (h : ∀ p ∈ blobs, p.1 ≠ oid) :
    ((blobs ++ [(oid, content)]).find? (fun p => decide (p.1 = oid))).map
      (fun p => p.2) = some content := by
  induction blobs with
  | nil => simp
  | cons p t ih =>
    have hp : p.1 ≠ oid := h p (by simp)
    rw [List.cons_append, List.find?_cons_of_neg _ (by simp [hp])]
    exact ih (fun p' hp' => h p' (by simp [hp']))

/-- C7 (amended): storing a non-empty byte string for an id that has a
`games` row and then retrieving it yields the data URI whose base64
payload decodes back to exactly the stored bytes and whose declared mime
type equals the stored one (the write and read both walk the large
object in 8 KiB chunks — `lo_write_loop` / `lo_read_loop`). -/
theorem store_retrieve_roundtrip (game_id : Int) (data : List Nat)
    (mime : String) (db : ImageDb)
    (hrow : ∃ r ∈ db.rows, r.id = game_id)
    (hfresh : ∀ p ∈ db.blobs, p.1 < db.next_oid)
    (hne : data ≠ []) (hbytes : ∀ x ∈ data, x < 256) :
    (store_image_in_db game_id data mime db).1 = true ∧
    get_image_as_base64 game_id (store_image_in_db game_id data mime db).2 =
      some ("data:" ++ mime ++ ";base64," ++ (b64encode data).asString) ∧
    b64decode (b64encode data) = some data := by
  have hwrite : lo_write_loop data 0 [] = data := by
    rw [lo_write_loop_spec, List.nil_append, List.drop_zero]
  have hread : lo_read_loop data 0 [] = data := by
    rw [lo_read_loop_spec, List.nil_append, List.drop_zero]
  have hie : data.isEmpty = false := by
    cases data with
    | nil => exact absurd rfl hne
    | cons a t => rfl
  refine ⟨rfl, ?_, b64decode_b64encode data hbytes⟩
  obtain ⟨rfound, hfind, ho, hm⟩ :=
    find_store_rows db.rows game_id db.next_oid mime data.length hrow
  simp only [store_image_in_db, hwrite, get_image_as_base64]
  rw [hfind]
  simp only [Option.some.injEq]
  rw [ho]
  simp only [ImageDb.lookupBlob]
  rcases hold : (db.rows.find? (fun r => decide (r.id = game_id))).bind
      (fun r => r.image_oid) with _ | o
  · simp only [hold]
    rw [lookup_fresh_blob db.blobs db.next_oid data
      (fun p hp => Nat.ne_of_lt (hfresh p hp))]
    simp only [hread, hie, Bool.false_eq_true, if_false, hm]
  · simp only [hold]
    rw [lookup_fresh_blob (db.blobs.filter (fun p => p.1 ≠ o)) db.next_oid data
      (fun p hp => Nat.ne_of_lt (hfresh p (List.mem_filter.mp hp).1))]
    simp only [hread, hie, Bool.false_eq_true, if_false, hm]

/-- Witness for C7 at a concrete input: storing the two bytes
`[72, 105]` under id 1 and reading them back. -/
theorem store_retrieve_roundtrip_witness :
    (store_image_in_db 1 [72, 105] "image/png"
      ⟨[⟨1, none, none, none⟩], [], 0⟩).1 = true ∧
    get_image_as_base64 1 (store_image_in_db 1 [72, 105] "image/png"
      ⟨[⟨1, none, none, none⟩], [], 0⟩).2 =
      some ("data:" ++ "image/png" ++ ";base64," ++
        (b64encode [72, 105]).asString) ∧
    b64decode (b64encode [72, 105]) = some [72, 105] :=
  store_retrieve_roundtrip 1 [72, 105] "image/png"
    ⟨[⟨1, none, none, none⟩], [], 0⟩
    ⟨⟨1, none, none, none⟩, by simp, rfl⟩ (by simp) (by simp) (by decide)

/-- Counterexample for C7 as frozen: the claim quantifies over every
byte string, but storing the empty byte string succeeds (the chunked
write loop writes zero chunks and the metadata update commits) while
retrieval then returns `None` — `get_image_as_base64` treats the empty
payload as missing (`if image_data:`), so no data URI comes back. -/
theorem store_retrieve_empty_counterexample :
    (store_image_in_db 1 [] "image/png"
      ⟨[⟨1, none, none, none⟩], [], 0⟩).1 = true ∧
    get_image_as_base64 1 (store_image_in_db 1 [] "image/png"
      ⟨[⟨1, none, none, none⟩], [], 0⟩).2 = none := by
  have hwrite : lo_write_loop ([] : List Nat) 0 [] = [] := by
    rw [lo_write_loop_spec, List.nil_append, List.drop_zero]
  have hread : lo_read_loop ([] : List Nat) 0 [] = [] := by
    rw [lo_read_loop_spec, List.nil_append, List.drop_zero]
  refine ⟨rfl, ?_⟩
  have hdb : (store_image_in_db 1 [] "image/png"
      ⟨[⟨1, none, none, none⟩], [], 0⟩).2 =
      ⟨[⟨1, some 0, some "image/png", some 0⟩], [(0, [])], 1⟩ := by
    simp only [store_image_in_db, hwrite]
    rfl
  rw [hdb]
  simp [get_image_as_base64, ImageDb.lookupBlob, List.find?, hread]

/-! ### Claim C8: download failure modes -/

/-- Counterexample for C8 as frozen: the claim says every non-2xx
response is rejected, but `raise_for_status` only raises for 4xx/5xx —
a 304 response with an image content type and a processable body reaches
the store and the call returns true. -/
theorem download_non2xx_counterexample :
    download_and_store_image "http://example.com/a.jpg"
      (HttpResult.response 304 "image/jpeg" [1])
      (some ([1], "image/jpeg")) none true = (true, 1) := by
  decide

/-- C8 (amended): `download_and_store_image` returns false immediately —
with no network request — when the url is empty or the literal `"N/A"`;
it returns false on a network error, on a 4xx/5xx response
(`raise_for_status`), on a content type not starting with `"image/"`,
and on any processing or storage failure; it returns true only when
storage succeeds after a successful processing pipeline; and it is a
total boolean function (every exception is caught). -/
theorem download_and_store_failure_modes (image_url : String)
    (http : HttpResult) (processed aggressive : Option (List Nat × String))
    (store_ok : Bool) :
    (image_url = "" ∨ image_url = "N/A" →
      download_and_store_image image_url http processed aggressive store_ok =
        (false, 0)) ∧
    (http = HttpResult.networkError →
      (download_and_store_image image_url http processed aggressive
        store_ok).1 = false) ∧
    (∀ status ct body, http = HttpResult.response status ct body →
      400 ≤ status → status < 600 →
      (download_and_store_image image_url http processed aggressive
        store_ok).1 = false) ∧
    (∀ status ct body, http = HttpResult.response status ct body →
      startswith ct "image/" = false →
      (download_and_store_image image_url http processed aggressive
        store_ok).1 = false) ∧
    (process_with_budget processed aggressive = none →
      (download_and_store_image image_url http processed aggressive
        store_ok).1 = false) ∧
    ((download_and_store_image image_url http processed aggressive
        store_ok).1 = true →
      store_ok = true ∧
        ∃ d m, process_with_budget processed aggressive = some (d, m)) := by
  by_cases hurl : (image_url = "" || image_url = "N/A") = true
  · have hred : download_and_store_image image_url http processed aggressive
        store_ok = (false, 0) := by
      simp only [download_and_store_image, hurl, if_true]
    refine ⟨fun _ => hred, fun _ => by rw [hred], fun _ _ _ _ _ _ => by rw [hred],
      fun _ _ _ _ _ => by rw [hred], fun _ => by rw [hred], fun htrue => ?_⟩
    rw [hred] at htrue
    cases htrue
  · have hurl' : ¬(image_url = "" ∨ image_url = "N/A") := by
      simpa using hurl
    refine ⟨fun h => absurd h hurl', ?_, ?_, ?_, ?_, ?_⟩
    · intro hmatch
      subst hmatch
      simp [download_and_store_image, hurl]
    · intro status ct body hmatch h4 h6
      subst hmatch
      have hrs : raise_for_status_raises status = true := by
        simp [raise_for_status_raises, h4, h6]
      simp [download_and_store_image, hurl, hrs]
    · intro status ct body hmatch hct
      subst hmatch
      by_cases hrs : raise_for_status_raises status = true
      · simp [download_and_store_image, hurl, hrs]
      · simp only [download_and_store_image, hurl, Bool.false_eq_true,
          if_false]
        rw [if_neg hrs, if_pos (by simp [hct])]
    · intro hproc
      rcases http with _ | ⟨status, ct, body⟩
      · simp [download_and_store_image, hurl]
      · by_cases hrs : raise_for_status_raises status = true
        · simp [download_and_store_image, hurl, hrs]
        · by_cases hct : startswith ct "image/" = true
          · simp only [download_and_store_image, hurl, Bool.false_eq_true,
              if_false]
            rw [if_neg hrs, if_neg (by simp [hct]), hproc]
          · simp only [download_and_store_image, hurl, Bool.false_eq_true,
              if_false]
            rw [if_neg hrs, if_pos (by simp at hct; simp [hct])]
    · intro htrue
      rcases http with _ | ⟨status, ct, body⟩
      · simp [download_and_store_image, hurl] at htrue
      · simp only [download_and_store_image, hurl, Bool.false_eq_true,
          if_false] at htrue
        by_cases hrs : raise_for_status_raises status = true
        · rw [if_pos hrs] at htrue
          cases htrue
        · rw [if_neg hrs] at htrue
          by_cases hct : startswith ct "image/" = true
          · rw [if_neg (by simp [hct])] at htrue
            rcases hproc : process_with_budget processed aggressive
                with _ | ⟨d, m⟩
            · rw [hproc] at htrue
              cases htrue
            · rw [hproc] at htrue
              exact ⟨htrue, d, m, rfl⟩
          · rw [if_pos (by simp at hct; simp [hct])] at htrue
            cases htrue

/-- Witness for C8: an empty url is rejected with no network request. -/
theorem download_and_store_failure_modes_witness :
    download_and_store_image "" HttpResult.networkError none none true =
      (false, 0) :=
  (download_and_store_failure_modes "" HttpResult.networkError none none
    true).1 (Or.inl rfl)

/-! ### Claim C9: task id generation -/

theorem addSet_nodup (l : List String) (x : String) (h : l.Nodup) :
    (addSet l x).Nodup := by
  unfold addSet
  by_cases hx : x ∈ l
  · rw [if_pos hx]
    exact h
  · rw [if_neg hx]
    rw [List.nodup_append]
    refine ⟨h, List.nodup_singleton x, ?_⟩
    intro a ha hax
    simp only [List.mem_singleton] at hax
    exact hx (hax ▸ ha)

/-- Counterexample for C9 as frozen: two distinct invocations of the
search starter with the same query in the same integer second generate
the SAME task id (`int(time.time())` has one-second resolution, and the
id embeds nothing else), so the ids of distinct invocations do not
always differ; the second start is then skipped by the running-task
guard — after two starts only one task is tracked and the first was
cancelled. -/
theorem task_id_collision_counterexample :
    bgg_search_task_id "catan" 5 = "bgg_search_catan_5" ∧
    (fetch_bgg_data_in_background
      (fetch_bgg_data_in_background ManagerState.init "catan" 5 true)
      "catan" 5 true).running_tasks = ["bgg_search_catan_5"] ∧
    (fetch_bgg_data_in_background
      (fetch_bgg_data_in_background ManagerState.init "catan" 5 true)
      "catan" 5 true).cancelled_tasks = ["bgg_search_catan_5"] := by
  decide

/-- C9 (amended): the generated task id embeds the query and the
integer-second timestamp, so two same-query invocations in different
seconds receive distinct ids; two invocations of the same query within
one second receive the identical id, and the coordinator's start guard
(`if task_id not in self.running_tasks`) then skips the second start, so
the running-task tracking never holds two entries for one id. -/
theorem task_id_distinctness_and_guard (q : String) (t1 t2 now : Nat)
    (s : ManagerState) (has_callback : Bool) :
    (t1 ≠ t2 → bgg_search_task_id q t1 ≠ bgg_search_task_id q t2) ∧
    (bgg_search_task_id q now ∈ (cancel_search_tasks s).running_tasks →
      fetch_bgg_data_in_background s q now has_callback =
        cancel_search_tasks s) ∧
    (s.running_tasks.Nodup →
      (fetch_bgg_data_in_background s q now
        has_callback).running_tasks.Nodup) := by
  refine ⟨?_, ?_, ?_⟩
  · intro hne heq
    apply hne
    apply nat_repr_injective
    have hd := congrArg String.data heq
    simp only [bgg_search_task_id, String.data_append, List.append_assoc] at hd
    exact String.ext
      (List.append_cancel_left (List.append_cancel_left
        (List.append_cancel_left hd)))
  · intro hmem
    simp only [fetch_bgg_data_in_background]
    rw [if_pos hmem]
  · intro hnd
    simp only [fetch_bgg_data_in_background]
    by_cases hmem : bgg_search_task_id q now ∈
        (cancel_search_tasks s).running_tasks
    · rw [if_pos hmem]
      exact hnd
    · rw [if_neg hmem]
      exact addSet_nodup _ _ hnd

/-- Witness for C9 (amended): same query, seconds 0 and 1, distinct ids;
a same-id start against a state already running that id is a no-op; the
running set stays duplicate-free. -/
theorem task_id_distinctness_and_guard_witness :
    bgg_search_task_id "catan" 0 ≠ bgg_search_task_id "catan" 1 ∧
    fetch_bgg_data_in_background ⟨["bgg_search_catan_0"], [], [], []⟩ "catan"
        0 true =
      cancel_search_tasks ⟨["bgg_search_catan_0"], [], [], []⟩ ∧
    (fetch_bgg_data_in_background ⟨["bgg_search_catan_0"], [], [], []⟩ "catan"
        0 true).running_tasks.Nodup :=
  ⟨(task_id_distinctness_and_guard "catan" 0 1 0 ManagerState.init true).1
      (by decide),
   (task_id_distinctness_and_guard "catan" 0 1 0
      ⟨["bgg_search_catan_0"], [], [], []⟩ true).2.1 (by decide),
   (task_id_distinctness_and_guard "catan" 0 1 0
      ⟨["bgg_search_catan_0"], [], [], []⟩ true).2.2 (by decide)⟩

/-! ### Claim C10: the game-level image guards -/

/-- Counterexample for C10 as frozen: for a game whose id is the
Python-falsy integer 0 — not `None` — with a perfectly good URL, a
stored local image and `force_update = false`, the claim's second clause
promises true, but `not self.id` is also true for 0, so the code takes
the falsy-id guard and returns false. -/
theorem local_image_guard_counterexample :
    has_local_image 0
      ⟨[⟨0, some 3, some "image/png", some 1⟩], [(3, [1])], 4⟩ = true ∧
    game_download_and_store_image
      (mkGame "G" 0 1 2 "http://x" (some 0) false none "") false
      ⟨[⟨0, some 3, some "image/png", some 1⟩], [(3, [1])], 4⟩
      (fun db => (true, db, 1)) =
      (false, ⟨[⟨0, some 3, some "image/png", some 1⟩], [(3, [1])], 4⟩, 0) := by
  decide

/-- C10 (amended): a Python-falsy id (`None` or 0), an empty image URL
or the literal `"N/A"` makes `Game.download_and_store_image` return
false with no network request and no storage change; when those guards
pass, an existing local image together with `force_update = false` makes
it return true, again leaving storage untouched and the network
uncontacted. -/
theorem game_image_guard (g : Game) (force_update : Bool) (db : ImageDb)
    (service : ImageDb → Bool × ImageDb × Nat) :
    (g.id = none ∨ g.id = some 0 ∨ g.image_path = "" ∨ g.image_path = "N/A" →
      game_download_and_store_image g force_update db service =
        (false, db, 0)) ∧
    (∀ i, g.id = some i → i ≠ 0 → g.image_path ≠ "" → g.image_path ≠ "N/A" →
      has_local_image i db = true → force_update = false →
      game_download_and_store_image g force_update db service =
        (true, db, 0)) := by
  constructor
  · rintro (h | h | h | h) <;> simp [game_download_and_store_image, idTruthy, h]
  · intro i hid hi hpath1 hpath2 hlocal hforce
    subst hforce
    simp [game_download_and_store_image, idTruthy, hid, hi, hpath1, hpath2,
      hlocal]

/-- Witness for C10 (amended): an empty URL yields false with storage
untouched; a good URL with a stored local image and no forcing yields
true with storage untouched. -/
theorem game_image_guard_witness :
    game_download_and_store_image (mkGame "G" 0 1 2 "" (some 5) false none "")
        false ⟨[], [], 0⟩ (fun db => (true, db, 1)) =
      (false, ⟨[], [], 0⟩, 0) ∧
    game_download_and_store_image
        (mkGame "G" 0 1 2 "http://x" (some 5) false none "") false
        ⟨[⟨5, some 3, some "image/png", some 1⟩], [(3, [1])], 4⟩
        (fun db => (true, db, 1)) =
      (true, ⟨[⟨5, some 3, some "image/png", some 1⟩], [(3, [1])], 4⟩, 0) :=
  ⟨(game_image_guard (mkGame "G" 0 1 2 "" (some 5) false none "") false
      ⟨[], [], 0⟩ (fun db => (true, db, 1))).1 (Or.inr (Or.inr (Or.inl rfl))),
   (game_image_guard (mkGame "G" 0 1 2 "http://x" (some 5) false none "")
      false ⟨[⟨5, some 3, some "image/png", some 1⟩], [(3, [1])], 4⟩
      (fun db => (true, db, 1))).2 5 rfl (by decide) (by decide) (by decide)
     (by decide) rfl⟩

end BggFlashcards
